import Mathlib

/-!
# Job model: keyword extraction and compatibility score

A shallow embedding of the two methods of `jobSchema`
(`src/backend/models/jobSchema.js`): `extractKeywords` and
`calculateCompatibilityScore`.

Conventions of the embedding.

* A field that may be `undefined` is an `Option`.
* A JavaScript number that may be `NaN` is an `Option ℚ` (`none` is `NaN`);
  arithmetic is exact rational arithmetic.
* A date is its time value in milliseconds, `none` for an invalid date.
* `toLowerCase` maps the ASCII letters; `\w` is `[A-Za-z0-9_]`.
* `new Date()` is the parameter `now`.
-/

namespace JobSchema

/-! ## Data model -/

/-- An entry of `requiredSkills` (`requiredSkillSchema`). -/
structure RequiredSkill where
  name : String
  level : String
  importance : String
  deriving DecidableEq

/-- The `education` block of a job. -/
structure JobEducation where
  level : Option String
  required : Bool
  deriving DecidableEq

/-- The fields of a job document read or written by the two methods. -/
structure Job where
  title : String
  description : String
  requiredSkills : Option (List RequiredSkill)
  minExperience : ℚ
  maxExperience : Option ℚ
  education : Option JobEducation
  workArrangement : String
  city : String
  fixedSalary : Option ℚ
  salaryFrom : Option ℚ
  salaryTo : Option ℚ
  aiKeywords : List String
  deriving DecidableEq

/-- An entry of `candidate.skills`. -/
structure CandidateSkill where
  name : String
  level : String
  deriving DecidableEq

/-- An entry of `candidate.experience`; the dates are the time values of
`new Date(exp.startDate)` and `new Date(exp.endDate)`. -/
structure Experience where
  startDate : Option ℤ
  endDate : Option ℤ
  isCurrent : Bool
  deriving DecidableEq

/-- An entry of `candidate.education`. -/
structure CandidateEducation where
  degree : Option String
  deriving DecidableEq

/-- The block `candidate.location`. -/
structure Location where
  city : Option String
  deriving DecidableEq

/-- The block `candidate.preferences.salaryExpectation`. -/
structure SalaryExpectation where
  min : Option ℚ
  max : Option ℚ
  deriving DecidableEq

/-- The block `candidate.preferences`; `openToRelocate` is the truthiness
of the field. -/
structure Preferences where
  openToRelocate : Bool
  salaryExpectation : Option SalaryExpectation
  deriving DecidableEq

/-- The fields of a candidate read by `calculateCompatibilityScore`. -/
structure Candidate where
  skills : Option (List CandidateSkill)
  experience : Option (List Experience)
  education : Option (List CandidateEducation)
  location : Option Location
  preferences : Option Preferences
  deriving DecidableEq

/-! ## Strings and numbers of the host language -/

/-- The method `toLowerCase` of a string, on the ASCII letters. -/
def toLowerCase (s : String) : String := ⟨s.data.map Char.toLower⟩

/-- The class `\w` of a regular expression without the unicode flag. -/
def isWordChar (c : Char) : Bool := c.isAlphanum || c == '_'

/-- The maximal runs of word characters of a text, in order; `cur` is the
run being read, most recent character first. -/
def wordRuns : List Char → List Char → List (List Char)
  | [], cur => if cur = [] then [] else [cur.reverse]
  | c :: cs, cur =>
    if isWordChar c then wordRuns cs (c :: cur)
    else if cur = [] then wordRuns cs [] else cur.reverse :: wordRuns cs []

/-- The array `words` of `extractKeywords`: the matches of the pattern (a word
boundary, three or more word characters, a word boundary) in the text, which
are the maximal runs of word characters that have at least three characters;
empty when there is no match. -/
def matchWords (text : String) : List String :=
  ((wordRuns text.data []).filter (fun r => 3 ≤ r.length)).map String.mk

/-- The method `includes` of a string: `t` occurs in `s` as a substring. -/
def includes (s t : String) : Bool :=
  s.data.tails.any (fun rest => t.data.isPrefixOf rest)

/-- Truthiness of a string field: present and not empty. -/
def truthyString : Option String → Option String
  | some s => if s = "" then none else some s
  | none => none

/-- Truthiness of a number field: present and not zero. -/
def truthyNumber : Option ℚ → Option ℚ
  | some x => if x = 0 then none else some x
  | none => none

/-- The sum `a + b` of two numbers, `NaN` when one of them is. -/
def numAdd : Option ℚ → Option ℚ → Option ℚ
  | some a, some b => some (a + b)
  | _, _ => none

/-- The comparison `a >= b` of two numbers, false when one is `NaN`. -/
def numGe : Option ℚ → Option ℚ → Bool
  | some a, some b => decide (b ≤ a)
  | _, _ => false

/-- The comparison `a <= b` of two numbers, false when one is `NaN`. -/
def numLe : Option ℚ → Option ℚ → Bool
  | some a, some b => decide (a ≤ b)
  | _, _ => false

/-- The function `Math.round` on a number that is not `NaN`: the nearest
integer, a half rounded up. -/
def mathRound (x : ℚ) : ℤ := Int.floor (x + 1 / 2)

/-! ## extractKeywords -/

/-- The constant `commonWords` of `extractKeywords`. -/
def commonWords : List String :=
  ["the", "and", "or", "but", "in", "on", "at", "to", "for", "of", "with", "by",
   "is", "are", "was", "were", "be", "been", "have", "has", "had", "do", "does",
   "did", "will", "would", "could", "should", "may", "might", "must", "can",
   "shall"]

/-- The first loop of `extractKeywords`: push the lowercased name of each
required skill. -/
def pushSkills (keywords : List String) (skills : List RequiredSkill) : List String :=
  skills.foldl (fun kws skill => kws ++ [toLowerCase skill.name]) keywords

/-- The body of the second loop of `extractKeywords`. -/
def pushWord (keywords : List String) (word : String) : List String :=
  if !commonWords.contains word && !keywords.contains word then keywords ++ [word]
  else keywords

/-- The second loop of `extractKeywords`. -/
def pushWords (keywords : List String) (words : List String) : List String :=
  words.foldl pushWord keywords

/-- The array `keywords` of `extractKeywords` before it is sliced. -/
def collectKeywords (job : Job) : List String :=
  let text := toLowerCase (job.title ++ " " ++ job.description)
  let keywords :=
    match job.requiredSkills with
    | some skills => pushSkills [] skills
    | none => []
  pushWords keywords (matchWords text)

/-- The method `extractKeywords`: the record with `aiKeywords` assigned, and
the returned list. -/
def extractKeywords (job : Job) : Job × List String :=
  let aiKeywords := (collectKeywords job).take 50
  ({ job with aiKeywords := aiKeywords }, aiKeywords)

/-! ## calculateCompatibilityScore -/

/-- What a lookup in the object literal `levelPoints` gives: a number, or
a member inherited from `Object.prototype`. -/
inductive LevelValue where
  | num (n : ℕ)
  | inherited (key : String)
  deriving DecidableEq

/-- The property names every object literal inherits. -/
def objectPrototypeKeys : List String :=
  ["constructor", "__defineGetter__", "__defineSetter__", "hasOwnProperty",
   "__lookupGetter__", "__lookupSetter__", "isPrototypeOf", "propertyIsEnumerable",
   "toString", "valueOf", "__proto__", "toLocaleString"]

/-- The lookup `levelPoints[level]`, `none` when it is `undefined`. -/
def levelPoints (level : String) : Option LevelValue :=
  if level = "Beginner" then some (.num 1)
  else if level = "Intermediate" then some (.num 2)
  else if level = "Advanced" then some (.num 3)
  else if level = "Expert" then some (.num 4)
  else if objectPrototypeKeys.contains level then some (.inherited level)
  else none

/-- The expression `levelPoints[level] || 1`; every value of the lookup is
truthy. -/
def levelOrDefault (level : String) : LevelValue :=
  (levelPoints level).getD (.num 1)

/-- The string an inherited member converts to when it is compared. -/
def inheritedText (key : String) : String :=
  if key = "__proto__" then "[object Object]"
  else if key = "constructor" then "function Object() \x7b [native code] \x7d"
  else "function " ++ key ++ "() \x7b [native code] \x7d"

/-- The comparison `candidateLevel >= requiredLevel`: numeric between two
numbers, false between a number and an inherited member (which converts to
`NaN`), and the order of the two texts between two inherited members. -/
def levelGe : LevelValue → LevelValue → Bool
  | .num a, .num b => decide (b ≤ a)
  | .inherited a, .inherited b => !decide (inheritedText a < inheritedText b)
  | _, _ => false

/-- The value of `skillScore` for a required skill and the candidate skill
found for it. -/
def skillScore (requiredSkill : RequiredSkill) (candidateSkill : CandidateSkill) : ℚ :=
  let skillScore : ℚ :=
    if levelGe (levelOrDefault candidateSkill.level) (levelOrDefault requiredSkill.level)
    then 10 + 5 else 10
  if requiredSkill.importance = "Must-have" then skillScore * (3 / 2)
  else if requiredSkill.importance = "Nice-to-have" then skillScore * (4 / 5)
  else skillScore

/-- The lookup `candidate.skills.find(s => s.name.toLowerCase() ===
requiredSkill.name.toLowerCase())`. -/
def findSkill (skills : List CandidateSkill) (requiredSkill : RequiredSkill) :
    Option CandidateSkill :=
  skills.find? (fun s => toLowerCase s.name == toLowerCase requiredSkill.name)

/-- The value of `skillsScore` after the loop over the required skills. -/
def skillsScore (requiredSkills : List RequiredSkill) (skills : List CandidateSkill) : ℚ :=
  requiredSkills.foldl
    (fun total requiredSkill =>
      match findSkill skills requiredSkill with
      | some candidateSkill => total + skillScore requiredSkill candidateSkill
      | none => total)
    0

/-- The amount the skills block adds to `score`. -/
def skillsPoints (job : Job) (candidate : Candidate) : ℚ :=
  match job.requiredSkills, candidate.skills with
  | some requiredSkills, some skills =>
    if 0 < requiredSkills.length ∧ 0 < skills.length then
      min (skillsScore requiredSkills skills / (requiredSkills.length : ℚ) * 4) 40
    else 0
  | _, _ => 0

/-- The divisor `1000 * 60 * 60 * 24 * 365`: the milliseconds of a year. -/
def msPerYear : ℚ := 1000 * 60 * 60 * 24 * 365

/-- The value `years` of one experience entry. -/
def experienceYears (now : ℤ) (exp : Experience) : Option ℚ :=
  let endDate := if exp.isCurrent then some now else exp.endDate
  match endDate, exp.startDate with
  | some e, some s => some (((e - s : ℤ) : ℚ) / msPerYear)
  | _, _ => none

/-- The value `totalExperience`: the `reduce` over the experience entries. -/
def totalExperience (now : ℤ) (experience : List Experience) : Option ℚ :=
  experience.foldl (fun total exp => numAdd total (experienceYears now exp)) (some 0)

/-- The amount the experience block adds to `score`. -/
def experiencePoints (job : Job) (candidate : Candidate) (now : ℤ) : ℚ :=
  match candidate.experience with
  | some experience =>
    if 0 < experience.length then
      let total := totalExperience now experience
      if numGe total (some job.minExperience) then
        if (truthyNumber job.maxExperience).isNone || numLe total job.maxExperience
        then 15 + 10 else 15
      else 0
    else 0
  | none => 0

/-- The condition `this.education && this.education.required`. -/
def educationRequired (job : Job) : Bool :=
  match job.education with
  | some education => education.required
  | none => false

/-- The callback of `candidate.education.some` for one entry. -/
def degreeMatches (job : Job) (edu : CandidateEducation) : Bool :=
  match job.education.bind (fun e => truthyString e.level), truthyString edu.degree with
  | some level, some degree => includes (toLowerCase degree) (toLowerCase level)
  | _, _ => false

/-- The amount the education block adds to `score`. -/
def educationPoints (job : Job) (candidate : Candidate) : ℚ :=
  let candidateHas : Bool :=
    match candidate.education with
    | some education => decide (0 < education.length)
    | none => false
  if educationRequired job && candidateHas then
    if (candidate.education.getD []).any (degreeMatches job) then 15 else 0
  else if !educationRequired job then 15
  else 0

/-- The amount the location block adds to `score`. -/
def locationPoints (job : Job) (candidate : Candidate) : ℚ :=
  if job.workArrangement = "Remote" then 10
  else
    match candidate.location.bind (fun l => truthyString l.city) with
    | some city =>
      if toLowerCase city = toLowerCase job.city then 10
      else
        match candidate.preferences with
        | some preferences => if preferences.openToRelocate then 5 else 0
        | none => 0
    | none => 0

/-- The value `jobSalary`: `this.fixedSalary || ((this.salaryFrom +
this.salaryTo) / 2)`. -/
def jobSalary (job : Job) : Option ℚ :=
  match truthyNumber job.fixedSalary with
  | some fixed => some fixed
  | none => (numAdd job.salaryFrom job.salaryTo).map (fun s => s / 2)

/-- The value `expectedSalary`. -/
def expectedSalary (expectation : SalaryExpectation) : Option ℚ :=
  (numAdd expectation.min expectation.max).map (fun s => s / 2)

/-- The amount the salary block adds to `score`. -/
def salaryPoints (job : Job) (candidate : Candidate) : ℚ :=
  match candidate.preferences.bind (fun p => p.salaryExpectation) with
  | some expectation =>
    let expected := expectedSalary expectation
    if numGe (jobSalary job) (expected.map (fun e => e * (9 / 10))) then 10
    else if numGe (jobSalary job) (expected.map (fun e => e * (8 / 10))) then 5
    else 0
  | none => 5

/-- The value of `score` before the last line. -/
def rawScore (job : Job) (candidate : Candidate) (now : ℤ) : ℚ :=
  0 + skillsPoints job candidate + experiencePoints job candidate now
    + educationPoints job candidate + locationPoints job candidate
    + salaryPoints job candidate

/-- The constant `maxScore`. -/
def maxScore : ℚ := 100

/-- The method `calculateCompatibilityScore`, `now` being the value of
`new Date()`. -/
def calculateCompatibilityScore (job : Job) (candidate : Candidate) (now : ℤ) : ℤ :=
  mathRound (min (rawScore job candidate now) maxScore)

/-! ## Example records -/

/-- A job that lists the same skill twice, in two spellings. -/
def repeatedSkillJob : Job :=
  { title := "Go Developer"
    description := "Write services for the payments platform"
    requiredSkills := some [⟨"Go", "Advanced", "Must-have"⟩, ⟨"go", "Expert", "Preferred"⟩]
    minExperience := 0
    maxExperience := none
    education := none
    workArrangement := "On-site"
    city := "Chennai"
    fixedSalary := none
    salaryFrom := none
    salaryTo := none
    aiKeywords := [] }

/-- A job with a required skill whose name is a stop word. -/
def stopWordSkillJob : Job :=
  { title := "Embedded Engineer"
    description := "You will work on the CAN bus stack and can test it"
    requiredSkills := some [⟨"CAN", "Advanced", "Must-have"⟩]
    minExperience := 0
    maxExperience := none
    education := none
    workArrangement := "On-site"
    city := "Chennai"
    fixedSalary := none
    salaryFrom := none
    salaryTo := none
    aiKeywords := [] }

/-- A remote job in Chennai. -/
def remoteJob : Job :=
  { title := "Platform Engineer"
    description := "Operate the deployment platform of the company"
    requiredSkills := some []
    minExperience := 0
    maxExperience := none
    education := some { level := some "Bachelor's", required := false }
    workArrangement := "Remote"
    city := "Chennai"
    fixedSalary := none
    salaryFrom := none
    salaryTo := none
    aiKeywords := [] }

/-- A candidate in another city, with no education entries, who would not
move. -/
def settledCandidate : Candidate :=
  { skills := none
    experience := none
    education := some []
    location := some { city := some "Madurai" }
    preferences := some { openToRelocate := false, salaryExpectation := none } }

/-- The time value of the date 2020-01-01. -/
def date20200101 : ℤ := 1577836800000

/-- The job of the worked example; the fields it leaves open are
parameters. -/
def exampleJob (title description city : String) (salaryFrom salaryTo : Option ℚ)
    (aiKeywords : List String) : Job :=
  { title := title
    description := description
    requiredSkills := some [⟨"Go", "Advanced", "Must-have"⟩]
    minExperience := 2
    maxExperience := none
    education := none
    workArrangement := "Remote"
    city := city
    fixedSalary := some 5000
    salaryFrom := salaryFrom
    salaryTo := salaryTo
    aiKeywords := aiKeywords }

/-- The candidate of the worked example. -/
def exampleCandidate (endDate : Option ℤ) (location : Option Location) : Candidate :=
  { skills := some [⟨"Go", "Expert"⟩]
    experience := some [{ startDate := some date20200101, endDate := endDate, isCurrent := true }]
    education := some []
    location := location
    preferences := some { openToRelocate := false, salaryExpectation := none } }

/-- A candidate none of whose fields is present. -/
def emptyCandidate : Candidate :=
  { skills := none, experience := none, education := none, location := none,
    preferences := none }

/-! ## The skills formula as the specification words it -/

/-- The rank of a level as specified: Beginner 1, Intermediate 2, Advanced 3,
Expert 4, any other level 1. -/
def specRank (level : String) : ℕ :=
  if level = "Beginner" then 1
  else if level = "Intermediate" then 2
  else if level = "Advanced" then 3
  else if level = "Expert" then 4
  else 1

/-- The importance weight as specified: Must-have 1.5, Nice-to-have 0.8, any
other importance 1. -/
def specWeight (importance : String) : ℚ :=
  if importance = "Must-have" then 3 / 2
  else if importance = "Nice-to-have" then 4 / 5
  else 1

/-- The term of a required skill in the specified sum: zero when no candidate
skill has its name ignoring case, else 10, plus 5 when the rank of the first
such candidate skill is at least the required rank, times the weight. -/
def specSkillTerm (skills : List CandidateSkill) (r : RequiredSkill) : ℚ :=
  match skills.find? (fun c => decide (toLowerCase c.name = toLowerCase r.name)) with
  | some c => (10 + (if specRank r.level ≤ specRank c.level then 5 else 0)) * specWeight r.importance
  | none => 0

/-- The specified sum `S` over the required skills. -/
def specSkillsSum (requiredSkills : List RequiredSkill) (skills : List CandidateSkill) : ℚ :=
  (requiredSkills.map (specSkillTerm skills)).sum

/-- The specified skills contribution: `min(4 * S / requiredSkills.length, 40)`
when both lists are present and non-empty, else 0. -/
def specSkillsPoints (job : Job) (candidate : Candidate) : ℚ :=
  match job.requiredSkills, candidate.skills with
  | some requiredSkills, some skills =>
    if requiredSkills ≠ [] ∧ skills ≠ [] then
      min (4 * specSkillsSum requiredSkills skills / (requiredSkills.length : ℚ)) 40
    else 0
  | _, _ => 0

/-- A job with one Nice-to-have skill required at the lowest level. -/
def inheritedLevelJob : Job :=
  { title := "Go Developer"
    description := "Write services for the payments platform"
    requiredSkills := some [⟨"Go", "Beginner", "Nice-to-have"⟩]
    minExperience := 0
    maxExperience := none
    education := none
    workArrangement := "On-site"
    city := "Chennai"
    fixedSalary := none
    salaryFrom := none
    salaryTo := none
    aiKeywords := [] }

/-- A candidate whose skill level is the name of an inherited member. -/
def inheritedLevelCandidate : Candidate :=
  { skills := some [⟨"Go", "constructor"⟩]
    experience := none
    education := none
    location := none
    preferences := none }

/-- An experience entry whose dates are valid: a start date, and an end date
unless the entry is current. -/
def datesValid (exp : Experience) : Prop :=
  exp.startDate.isSome = true ∧ (exp.isCurrent = true ∨ exp.endDate.isSome = true)

/-- The years of an entry with valid dates: end minus start over 365 days,
the end being the current time for a current entry. -/
def specYears (now : ℤ) (exp : Experience) : ℚ :=
  (((if exp.isCurrent then now else exp.endDate.getD 0) - exp.startDate.getD 0 : ℤ) : ℚ)
    / msPerYear

/-- The total `T` of the specification: the sum of the years of the entries. -/
def specTotalYears (now : ℤ) (experience : List Experience) : ℚ :=
  (experience.map (specYears now)).sum

/-- A job that asks for no experience at all: `minExperience` and
`maxExperience` are both 0. -/
def zeroMaxJob : Job :=
  { title := "Trainee Developer"
    description := "Learn to write services for the payments platform"
    requiredSkills := some []
    minExperience := 0
    maxExperience := some 0
    education := none
    workArrangement := "On-site"
    city := "Chennai"
    fixedSalary := none
    salaryFrom := none
    salaryTo := none
    aiKeywords := [] }

/-- A past job from 2020-01-01 to 2021-01-01. -/
def pastYearEntry : Experience :=
  { startDate := some date20200101, endDate := some 1609459200000, isCurrent := false }

/-- A candidate with one past job, from 2020-01-01 to 2021-01-01. -/
def oneYearCandidate : Candidate :=
  { skills := none
    experience := some [pastYearEntry]
    education := none
    location := none
    preferences := none }

/-! ## Records for the education, location and salary blocks -/

/-- A job that requires a PhD and pays a fixed salary. -/
def doctoralJob : Job :=
  { title := "Research Scientist"
    description := "Design and evaluate ranking models for the search team"
    requiredSkills := some []
    minExperience := 0
    maxExperience := none
    education := some { level := some "PhD", required := true }
    workArrangement := "On-site"
    city := "Chennai"
    fixedSalary := some 5000
    salaryFrom := none
    salaryTo := none
    aiKeywords := [] }

/-- A candidate with a doctorate who lives in the city of the job, written
in capitals, and expects a salary between 5000 and 6000. -/
def doctoralCandidate : Candidate :=
  { skills := none
    experience := none
    education := some [{ degree := some "PhD in Computer Science" }]
    location := some { city := some "CHENNAI" }
    preferences := some { openToRelocate := false,
                          salaryExpectation := some { min := some 5000, max := some 6000 } } }

/-! ## The keyword list as the specification words it -/

theorem pushSkills_eq (keywords : List String) (skills : List RequiredSkill) :
    pushSkills keywords skills = keywords ++ skills.map (fun s => toLowerCase s.name) := by
  induction skills generalizing keywords with
  | nil => simp [pushSkills]
  | cons s rest ih =>
    have step : pushSkills keywords (s :: rest)
        = pushSkills (keywords ++ [toLowerCase s.name]) rest := rfl
    rw [step, ih]
    simp

theorem mem_pushWord {keywords : List String} {word w : String}
    (h : w ∈ pushWord keywords word) :
    w ∈ keywords ∨ (w = word ∧ w ∉ commonWords) := by
  unfold pushWord at h
  split at h
  · rename_i hc
    simp at hc
    rcases List.mem_append.mp h with h1 | h1
    · exact Or.inl h1
    · right
      have hw : w = word := by simpa using h1
      exact ⟨hw, hw ▸ hc.1⟩
  · exact Or.inl h

theorem mem_pushWords {words keywords : List String} {w : String}
    (h : w ∈ pushWords keywords words) :
    w ∈ keywords ∨ (w ∈ words ∧ w ∉ commonWords) := by
  induction words generalizing keywords with
  | nil => exact Or.inl h
  | cons word rest ih =>
    have step : pushWords keywords (word :: rest) = pushWords (pushWord keywords word) rest := rfl
    rw [step] at h
    rcases ih h with h1 | h1
    · rcases mem_pushWord h1 with h2 | h2
      · exact Or.inl h2
      · exact Or.inr ⟨by simp [h2.1], h2.2⟩
    · exact Or.inr ⟨List.mem_cons_of_mem _ h1.1, h1.2⟩

theorem nodup_pushWord {keywords : List String} (word : String) (h : keywords.Nodup) :
    (pushWord keywords word).Nodup := by
  unfold pushWord
  split
  · rename_i hc
    simp at hc
    exact List.Nodup.append h (List.nodup_singleton word) (by simpa using hc.2)
  · exact h

theorem nodup_pushWords {words keywords : List String} (h : keywords.Nodup) :
    (pushWords keywords words).Nodup := by
  induction words generalizing keywords with
  | nil => exact h
  | cons word rest ih => exact ih (nodup_pushWord word h)

/-- C5: a second call of `extractKeywords`, on the record the first call
left, returns the same list and leaves the record unchanged. -/
theorem extractKeywords_idempotent (job : Job) :
    (extractKeywords (extractKeywords job).1).2 = (extractKeywords job).2
      ∧ (extractKeywords (extractKeywords job).1).1 = (extractKeywords job).1 :=
  ⟨rfl, rfl⟩

/-- C6: the list returned by `extractKeywords` has at most 50 entries,
whatever the title, the description and the required skills are. -/
theorem extractKeywords_length_le (job : Job) : (extractKeywords job).2.length ≤ 50 := by
  simp [extractKeywords, List.length_take]

/-- C7: on a job whose required skills are "Go" and "go", the returned list
holds "go" twice, so it has a duplicate. -/
theorem extractKeywords_repeatedSkill :
    (extractKeywords repeatedSkillJob).2
        = ["go", "go", "developer", "write", "services", "payments", "platform"]
      ∧ ¬ (extractKeywords repeatedSkillJob).2.Nodup := by
  decide

/-- When the lowercased names of the required skills are pairwise distinct,
the list returned by `extractKeywords` has no duplicate. -/
theorem extractKeywords_nodup_of_skills (job : Job)
    (h : ((job.requiredSkills.getD []).map (fun s => toLowerCase s.name)).Nodup) :
    (extractKeywords job).2.Nodup := by
  have hc : (collectKeywords job).Nodup := by
    unfold collectKeywords
    apply nodup_pushWords
    cases hr : job.requiredSkills with
    | none => simp
    | some skills =>
      rw [hr] at h
      simpa [pushSkills_eq] using h
  exact hc.sublist (List.take_sublist 50 _)

/-- C8, as stated, fails: "can" is a stop word and is an entry of the list
returned for a job that requires the skill "CAN". -/
theorem extractKeywords_stop_word_entry :
    "can" ∈ commonWords ∧ "can" ∈ (extractKeywords stopWordSkillJob).2 := by
  decide

/-- C8, amended: an entry of the returned list that is a stop word is the
lowercased name of a required skill; no stop word comes from the title or
the description. -/
theorem extractKeywords_stop_word_is_skill (job : Job) (w : String)
    (hw : w ∈ (extractKeywords job).2) (hs : w ∈ commonWords) :
    ∃ skills, job.requiredSkills = some skills ∧ ∃ s ∈ skills, toLowerCase s.name = w := by
  have hc : w ∈ collectKeywords job := List.mem_of_mem_take hw
  unfold collectKeywords at hc
  rcases mem_pushWords hc with h1 | h1
  · cases hr : job.requiredSkills with
    | none => rw [hr] at h1; simp at h1
    | some skills =>
      rw [hr] at h1
      simp only [pushSkills_eq, List.nil_append, List.mem_map] at h1
      exact ⟨skills, rfl, h1⟩
  · exact absurd hs h1.2

/-- The amended C8 at the job that requires the skill "CAN". -/
theorem extractKeywords_stop_word_is_skill_witness :
    "can" ∈ (extractKeywords stopWordSkillJob).2 ∧ "can" ∈ commonWords
      ∧ ∃ skills, stopWordSkillJob.requiredSkills = some skills
          ∧ ∃ s ∈ skills, toLowerCase s.name = "can" :=
  ⟨by decide, by decide,
    extractKeywords_stop_word_is_skill stopWordSkillJob "can" (by decide) (by decide)⟩

/-- C9: for the title "Backend Engineer", the description "Build and
maintain backend services using caching and queues" and the single required
skill "Node", `extractKeywords` returns node, backend, engineer, build,
maintain, services, using, caching, queues, whatever the other fields are. -/
theorem extractKeywords_backend_example (level importance : String)
    (minExperience : ℚ) (maxExperience : Option ℚ) (education : Option JobEducation)
    (workArrangement city : String) (fixedSalary salaryFrom salaryTo : Option ℚ)
    (aiKeywords : List String) :
    (extractKeywords
        { title := "Backend Engineer"
          description := "Build and maintain backend services using caching and queues"
          requiredSkills := some [⟨"Node", level, importance⟩]
          minExperience := minExperience
          maxExperience := maxExperience
          education := education
          workArrangement := workArrangement
          city := city
          fixedSalary := fixedSalary
          salaryFrom := salaryFrom
          salaryTo := salaryTo
          aiKeywords := aiKeywords }).2
      = ["node", "backend", "engineer", "build", "maintain", "services", "using",
         "caching", "queues"] := by
  have hs : pushSkills [] [(⟨"Node", level, importance⟩ : RequiredSkill)] = ["node"] := by
    simp only [pushSkills, List.foldl, List.nil_append]
    decide
  simp only [extractKeywords, collectKeywords, hs]
  decide

/-! ## Facts about calculateCompatibilityScore -/

theorem skillScore_nonneg (requiredSkill : RequiredSkill) (candidateSkill : CandidateSkill) :
    0 ≤ skillScore requiredSkill candidateSkill := by
  unfold skillScore
  split_ifs <;> norm_num

theorem skillsScore_foldl_nonneg (skills : List CandidateSkill)
    (requiredSkills : List RequiredSkill) (total : ℚ) (h : 0 ≤ total) :
    0 ≤ requiredSkills.foldl
      (fun total requiredSkill =>
        match findSkill skills requiredSkill with
        | some candidateSkill => total + skillScore requiredSkill candidateSkill
        | none => total)
      total := by
  induction requiredSkills generalizing total with
  | nil => exact h
  | cons r rest ih =>
    simp only [List.foldl]
    apply ih
    cases findSkill skills r with
    | none => exact h
    | some c => exact add_nonneg h (skillScore_nonneg r c)

theorem skillsScore_nonneg (requiredSkills : List RequiredSkill)
    (skills : List CandidateSkill) : 0 ≤ skillsScore requiredSkills skills :=
  skillsScore_foldl_nonneg skills requiredSkills 0 le_rfl

theorem skillsPoints_bounds (job : Job) (candidate : Candidate) :
    0 ≤ skillsPoints job candidate ∧ skillsPoints job candidate ≤ 40 := by
  unfold skillsPoints
  split
  · rename_i requiredSkills skills _ _
    split
    · refine ⟨le_min ?_ (by norm_num), min_le_right _ _⟩
      exact mul_nonneg (div_nonneg (skillsScore_nonneg _ _) (Nat.cast_nonneg _)) (by norm_num)
    · norm_num
  · norm_num

theorem experiencePoints_bounds (job : Job) (candidate : Candidate) (now : ℤ) :
    0 ≤ experiencePoints job candidate now ∧ experiencePoints job candidate now ≤ 25 := by
  unfold experiencePoints
  dsimp only
  repeat' split
  all_goals norm_num

theorem educationPoints_bounds (job : Job) (candidate : Candidate) :
    0 ≤ educationPoints job candidate ∧ educationPoints job candidate ≤ 15 := by
  unfold educationPoints
  dsimp only
  repeat' split
  all_goals norm_num

theorem locationPoints_bounds (job : Job) (candidate : Candidate) :
    0 ≤ locationPoints job candidate ∧ locationPoints job candidate ≤ 10 := by
  unfold locationPoints
  repeat' split
  all_goals norm_num

theorem salaryPoints_bounds (job : Job) (candidate : Candidate) :
    0 ≤ salaryPoints job candidate ∧ salaryPoints job candidate ≤ 10 := by
  unfold salaryPoints
  dsimp only
  repeat' split
  all_goals norm_num

theorem rawScore_bounds (job : Job) (candidate : Candidate) (now : ℤ) :
    0 ≤ rawScore job candidate now ∧ rawScore job candidate now ≤ 100 := by
  have h1 := skillsPoints_bounds job candidate
  have h2 := experiencePoints_bounds job candidate now
  have h3 := educationPoints_bounds job candidate
  have h4 := locationPoints_bounds job candidate
  have h5 := salaryPoints_bounds job candidate
  unfold rawScore
  constructor <;> linarith [h1.1, h1.2, h2.1, h2.2, h3.1, h3.2, h4.1, h4.2, h5.1, h5.2]

theorem mathRound_bounds {x : ℚ} (h0 : 0 ≤ x) (h1 : x ≤ 100) :
    0 ≤ mathRound x ∧ mathRound x ≤ 100 := by
  unfold mathRound
  constructor
  · apply Int.floor_nonneg.mpr
    linarith
  · have h : Int.floor (x + 1 / 2) < 100 + 1 := by
      apply Int.floor_lt.mpr
      push_cast
      linarith
    omega

/-- C1: `calculateCompatibilityScore` returns an integer between 0 and 100,
for every job, every candidate and every current time. -/
theorem calculateCompatibilityScore_range (job : Job) (candidate : Candidate) (now : ℤ) :
    0 ≤ calculateCompatibilityScore job candidate now
      ∧ calculateCompatibilityScore job candidate now ≤ 100 := by
  have h := rawScore_bounds job candidate now
  unfold calculateCompatibilityScore maxScore
  exact mathRound_bounds (le_min h.1 (by norm_num)) (min_le_right _ _)

/-- C2: each of the five amounts added to the score is non-negative and at
most its weight: skills 40, experience 25, education 15, location 10,
salary 10. -/
theorem contributions_within_weights (job : Job) (candidate : Candidate) (now : ℤ) :
    (0 ≤ skillsPoints job candidate ∧ skillsPoints job candidate ≤ 40)
      ∧ (0 ≤ experiencePoints job candidate now ∧ experiencePoints job candidate now ≤ 25)
      ∧ (0 ≤ educationPoints job candidate ∧ educationPoints job candidate ≤ 15)
      ∧ (0 ≤ locationPoints job candidate ∧ locationPoints job candidate ≤ 10)
      ∧ (0 ≤ salaryPoints job candidate ∧ salaryPoints job candidate ≤ 10) :=
  ⟨skillsPoints_bounds job candidate, experiencePoints_bounds job candidate now,
    educationPoints_bounds job candidate, locationPoints_bounds job candidate,
    salaryPoints_bounds job candidate⟩

/-- C3: for a job whose `workArrangement` is "Remote" the location block
adds exactly 10, whatever the candidate's location and preferences are. -/
theorem locationPoints_remote (job : Job) (candidate : Candidate)
    (h : job.workArrangement = "Remote") : locationPoints job candidate = 10 := by
  unfold locationPoints
  rw [if_pos h]

/-- A remote job in Chennai and a candidate in Madurai who would not move. -/
theorem locationPoints_remote_witness :
    remoteJob.workArrangement = "Remote" ∧ locationPoints remoteJob settledCandidate = 10 :=
  ⟨rfl, locationPoints_remote remoteJob settledCandidate rfl⟩

/-- C4: for a job with no education block, or whose `education.required` is
false, the education block adds exactly 15, whatever the candidate's
education list is. -/
theorem educationPoints_not_required (job : Job) (candidate : Candidate)
    (h : job.education = none ∨ ∃ e, job.education = some e ∧ e.required = false) :
    educationPoints job candidate = 15 := by
  have hr : educationRequired job = false := by
    unfold educationRequired
    rcases h with h | ⟨e, he, hreq⟩
    · rw [h]
    · rw [he]
      exact hreq
  unfold educationPoints
  simp [hr]

/-- A job whose education block is not required and a candidate with an empty
education list. -/
theorem educationPoints_not_required_witness :
    (remoteJob.education = none
        ∨ ∃ e, remoteJob.education = some e ∧ e.required = false)
      ∧ educationPoints remoteJob settledCandidate = 15 :=
  ⟨Or.inr ⟨_, rfl, rfl⟩,
    educationPoints_not_required remoteJob settledCandidate (Or.inr ⟨_, rfl, rfl⟩)⟩

theorem exampleJob_skillsPoints (title description city : String)
    (salaryFrom salaryTo : Option ℚ) (aiKeywords : List String) (endDate : Option ℤ)
    (location : Option Location) :
    skillsPoints (exampleJob title description city salaryFrom salaryTo aiKeywords)
      (exampleCandidate endDate location) = 40 := by
  have hfind : findSkill [⟨"Go", "Expert"⟩] ⟨"Go", "Advanced", "Must-have"⟩
      = some ⟨"Go", "Expert"⟩ := by decide
  have hlevel : levelGe (levelOrDefault "Expert") (levelOrDefault "Advanced") = true := by
    decide
  have hscore : skillScore ⟨"Go", "Advanced", "Must-have"⟩ ⟨"Go", "Expert"⟩ = 45 / 2 := by
    simp only [skillScore, hlevel]
    norm_num
  simp only [skillsPoints, exampleJob, exampleCandidate, skillsScore, List.foldl, hfind, hscore]
  norm_num

theorem exampleJob_experiencePoints (title description city : String)
    (salaryFrom salaryTo : Option ℚ) (aiKeywords : List String) (endDate : Option ℤ)
    (location : Option Location) (now : ℤ)
    (h : date20200101 + 2 * (1000 * 60 * 60 * 24 * 365) ≤ now) :
    experiencePoints (exampleJob title description city salaryFrom salaryTo aiKeywords)
      (exampleCandidate endDate location) now = 25 := by
  have hq : (2 : ℚ) ≤ 0 + ((now - date20200101 : ℤ) : ℚ) / msPerYear := by
    have hz : ((2 * (1000 * 60 * 60 * 24 * 365) : ℤ) : ℚ) ≤ ((now - date20200101 : ℤ) : ℚ) := by
      exact_mod_cast (by omega : (2 * (1000 * 60 * 60 * 24 * 365) : ℤ) ≤ now - date20200101)
    have hpos : (0 : ℚ) < msPerYear := by norm_num [msPerYear]
    rw [zero_add, le_div_iff₀ hpos]
    have : (2 : ℚ) * msPerYear = ((2 * (1000 * 60 * 60 * 24 * 365) : ℤ) : ℚ) := by
      norm_num [msPerYear]
    linarith
  simp only [experiencePoints, exampleJob, exampleCandidate, totalExperience, List.foldl,
    experienceYears, numAdd, numGe, truthyNumber]
  have hq2 : (2 : ℚ) ≤ ((now : ℚ) - (date20200101 : ℚ)) / msPerYear := by
    simpa using hq
  simp [hq2]
  norm_num

/-- C10: in the worked example (one Must-have skill "Go" required at
Advanced and held at Expert, two years required, no upper limit, no education
block, remote, fixed salary 5000; a current job since 2020-01-01, no salary
expectation) the score is 95 at every current time at least 2 * 365 days
after 2020-01-01: skills 40, experience 25, education 15, location 10,
salary 5. -/
theorem calculateCompatibilityScore_example (title description city : String)
    (salaryFrom salaryTo : Option ℚ) (aiKeywords : List String) (endDate : Option ℤ)
    (location : Option Location) (now : ℤ)
    (h : date20200101 + 2 * (1000 * 60 * 60 * 24 * 365) ≤ now) :
    calculateCompatibilityScore (exampleJob title description city salaryFrom salaryTo aiKeywords)
        (exampleCandidate endDate location) now = 95
      ∧ skillsPoints (exampleJob title description city salaryFrom salaryTo aiKeywords)
          (exampleCandidate endDate location) = 40
      ∧ experiencePoints (exampleJob title description city salaryFrom salaryTo aiKeywords)
          (exampleCandidate endDate location) now = 25
      ∧ educationPoints (exampleJob title description city salaryFrom salaryTo aiKeywords)
          (exampleCandidate endDate location) = 15
      ∧ locationPoints (exampleJob title description city salaryFrom salaryTo aiKeywords)
          (exampleCandidate endDate location) = 10
      ∧ salaryPoints (exampleJob title description city salaryFrom salaryTo aiKeywords)
          (exampleCandidate endDate location) = 5 := by
  have h1 := exampleJob_skillsPoints title description city salaryFrom salaryTo aiKeywords
    endDate location
  have h2 := exampleJob_experiencePoints title description city salaryFrom salaryTo aiKeywords
    endDate location now h
  have h3 : educationPoints (exampleJob title description city salaryFrom salaryTo aiKeywords)
      (exampleCandidate endDate location) = 15 := by
    simp [educationPoints, educationRequired, exampleJob]
  have h4 : locationPoints (exampleJob title description city salaryFrom salaryTo aiKeywords)
      (exampleCandidate endDate location) = 10 := by
    simp [locationPoints, exampleJob]
  have h5 : salaryPoints (exampleJob title description city salaryFrom salaryTo aiKeywords)
      (exampleCandidate endDate location) = 5 := by
    simp [salaryPoints, exampleCandidate]
  refine ⟨?_, h1, h2, h3, h4, h5⟩
  unfold calculateCompatibilityScore rawScore maxScore mathRound
  rw [h1, h2, h3, h4, h5, Int.floor_eq_iff]
  norm_num

/-- The worked example at the first current time the statement covers. -/
theorem calculateCompatibilityScore_example_witness :
    date20200101 + 2 * (1000 * 60 * 60 * 24 * 365) ≤ 1640908800000
      ∧ calculateCompatibilityScore
          (exampleJob "Go Developer" "Write services for the payments platform" "Chennai"
            none none [])
          (exampleCandidate none none) 1640908800000 = 95 :=
  ⟨by decide,
    (calculateCompatibilityScore_example "Go Developer"
      "Write services for the payments platform" "Chennai" none none [] none none
      1640908800000 (by decide)).1⟩

/-! ## The score as a whole -/

theorem mathRound_intCast (n : ℤ) : mathRound (n : ℚ) = n := by
  unfold mathRound
  rw [Int.floor_eq_iff]
  constructor <;> linarith

theorem mathRound_mono {x y : ℚ} (h : x ≤ y) : mathRound x ≤ mathRound y := by
  unfold mathRound
  exact Int.floor_mono (by linarith)

/-- C18: for a candidate whose skills, experience, education, location and
preferences are all absent the score is defined and equals 5, plus 15 when
the job has no education block or does not require education, plus 10 when
the job is remote. -/
theorem calculateCompatibilityScore_emptyCandidate (job : Job) (now : ℤ) :
    calculateCompatibilityScore job emptyCandidate now
      = 5 + (match job.education with
              | none => 15
              | some education => if education.required = true then 0 else 15)
          + (if job.workArrangement = "Remote" then 10 else 0) := by
  have h1 : skillsPoints job emptyCandidate = 0 := by
    unfold skillsPoints emptyCandidate
    cases job.requiredSkills <;> rfl
  have h2 : experiencePoints job emptyCandidate now = 0 := rfl
  have h3 : educationPoints job emptyCandidate
      = ((match job.education with
          | none => 15
          | some education => if education.required = true then 0 else 15 : ℤ) : ℚ) := by
    unfold educationPoints educationRequired emptyCandidate
    cases job.education with
    | none => simp
    | some e => cases hr : e.required <;> simp [hr]
  have h4 : locationPoints job emptyCandidate
      = ((if job.workArrangement = "Remote" then 10 else 0 : ℤ) : ℚ) := by
    unfold locationPoints emptyCandidate
    by_cases h : job.workArrangement = "Remote" <;> simp [h]
  have h5 : salaryPoints job emptyCandidate = 5 := rfl
  have hraw : rawScore job emptyCandidate now
      = ((5 + (match job.education with
              | none => 15
              | some education => if education.required = true then 0 else 15)
          + (if job.workArrangement = "Remote" then 10 else 0) : ℤ) : ℚ) := by
    unfold rawScore
    rw [h1, h2, h3, h4, h5]
    push_cast
    ring
  have hle := (rawScore_bounds job emptyCandidate now).2
  unfold calculateCompatibilityScore maxScore
  rw [min_eq_left hle, hraw, mathRound_intCast]

/-- C19: the sum of the five amounts is at most 100, so the minimum with
`maxScore` on the last line is the sum itself, and the result is the sum
rounded to the nearest integer, a half rounded up. -/
theorem calculateCompatibilityScore_eq_round_sum (job : Job) (candidate : Candidate)
    (now : ℤ) :
    skillsPoints job candidate + experiencePoints job candidate now
        + educationPoints job candidate + locationPoints job candidate
        + salaryPoints job candidate ≤ 100
      ∧ min (rawScore job candidate now) maxScore
          = skillsPoints job candidate + experiencePoints job candidate now
            + educationPoints job candidate + locationPoints job candidate
            + salaryPoints job candidate
      ∧ ((calculateCompatibilityScore job candidate now : ℚ) - 1 / 2
            ≤ skillsPoints job candidate + experiencePoints job candidate now
              + educationPoints job candidate + locationPoints job candidate
              + salaryPoints job candidate)
      ∧ (skillsPoints job candidate + experiencePoints job candidate now
            + educationPoints job candidate + locationPoints job candidate
            + salaryPoints job candidate
          < (calculateCompatibilityScore job candidate now : ℚ) + 1 / 2) := by
  have hraw : rawScore job candidate now
      = skillsPoints job candidate + experiencePoints job candidate now
        + educationPoints job candidate + locationPoints job candidate
        + salaryPoints job candidate := by
    unfold rawScore
    ring
  have hle := (rawScore_bounds job candidate now).2
  have hmin : min (rawScore job candidate now) maxScore = rawScore job candidate now :=
    min_eq_left hle
  have hcalc : calculateCompatibilityScore job candidate now
      = Int.floor (rawScore job candidate now + 1 / 2) := by
    unfold calculateCompatibilityScore mathRound
    rw [hmin]
  have hfl := Int.floor_le (rawScore job candidate now + 1 / 2)
  have hlt := Int.lt_floor_add_one (rawScore job candidate now + 1 / 2)
  rw [← hcalc] at hfl hlt
  rw [← hraw]
  refine ⟨hle, hmin, ?_, ?_⟩ <;> linarith

theorem findSkill_append (skills : List CandidateSkill) (s : CandidateSkill)
    (requiredSkill : RequiredSkill) :
    findSkill (skills ++ [s]) requiredSkill
      = (findSkill skills requiredSkill).or (findSkill [s] requiredSkill) := by
  unfold findSkill
  exact List.find?_append

theorem skillsScore_foldl_append_le (skills : List CandidateSkill) (s : CandidateSkill)
    (requiredSkills : List RequiredSkill) (a b : ℚ) (h : a ≤ b) :
    requiredSkills.foldl
        (fun total requiredSkill =>
          match findSkill skills requiredSkill with
          | some candidateSkill => total + skillScore requiredSkill candidateSkill
          | none => total)
        a
      ≤ requiredSkills.foldl
        (fun total requiredSkill =>
          match findSkill (skills ++ [s]) requiredSkill with
          | some candidateSkill => total + skillScore requiredSkill candidateSkill
          | none => total)
        b := by
  induction requiredSkills generalizing a b with
  | nil => exact h
  | cons r rest ih =>
    simp only [List.foldl]
    apply ih
    rw [findSkill_append]
    cases hf : findSkill skills r with
    | some c =>
      simp only [Option.or_some]
      exact add_le_add_right h _
    | none =>
      simp only [Option.none_or]
      cases findSkill [s] r with
      | none => exact h
      | some c =>
        have := skillScore_nonneg r c
        show a ≤ b + skillScore r c
        linarith

theorem skillsScore_append_le (requiredSkills : List RequiredSkill)
    (skills : List CandidateSkill) (s : CandidateSkill) :
    skillsScore requiredSkills skills ≤ skillsScore requiredSkills (skills ++ [s]) :=
  skillsScore_foldl_append_le skills s requiredSkills 0 0 le_rfl

theorem skillsPoints_append_le (job : Job) (candidate : Candidate)
    (skills : List CandidateSkill) (s : CandidateSkill) :
    skillsPoints job { candidate with skills := some skills }
      ≤ skillsPoints job { candidate with skills := some (skills ++ [s]) } := by
  unfold skillsPoints
  cases hr : job.requiredSkills with
  | none => exact le_rfl
  | some rs =>
    simp only
    by_cases hlen : 0 < rs.length
    · have hpos : (0 : ℚ) < (rs.length : ℚ) := by exact_mod_cast hlen
      have hnew : 0 < (skills ++ [s]).length := by simp
      rw [if_pos (show 0 < rs.length ∧ 0 < (skills ++ [s]).length from ⟨hlen, hnew⟩)]
      have hmono : skillsScore rs skills / (rs.length : ℚ) * 4
          ≤ skillsScore rs (skills ++ [s]) / (rs.length : ℚ) * 4 := by
        have := div_le_div_of_nonneg_right (skillsScore_append_le rs skills s) hpos.le
        linarith
      by_cases hsk : 0 < skills.length
      · rw [if_pos (show 0 < rs.length ∧ 0 < skills.length from ⟨hlen, hsk⟩)]
        exact min_le_min hmono le_rfl
      · rw [if_neg (show ¬ (0 < rs.length ∧ 0 < skills.length) from fun hc => hsk hc.2)]
        refine le_min ?_ (by norm_num)
        exact mul_nonneg (div_nonneg (skillsScore_nonneg _ _) hpos.le) (by norm_num)
    · rw [if_neg (fun hc => hlen hc.1), if_neg (fun hc => hlen hc.1)]

/-- C20: appending a skill entry at the end of the candidate's skills list
never lowers the score, the job, the other fields of the candidate and the
current time being the same. -/
theorem calculateCompatibilityScore_append_skill (job : Job) (candidate : Candidate)
    (skills : List CandidateSkill) (s : CandidateSkill) (now : ℤ) :
    calculateCompatibilityScore job { candidate with skills := some skills } now
      ≤ calculateCompatibilityScore job
          { candidate with skills := some (skills ++ [s]) } now := by
  have hs := skillsPoints_append_le job candidate skills s
  have hraw : rawScore job { candidate with skills := some skills } now
      ≤ rawScore job { candidate with skills := some (skills ++ [s]) } now := by
    unfold rawScore
    have e2 : experiencePoints job { candidate with skills := some skills } now
        = experiencePoints job { candidate with skills := some (skills ++ [s]) } now := rfl
    have e3 : educationPoints job { candidate with skills := some skills }
        = educationPoints job { candidate with skills := some (skills ++ [s]) } := rfl
    have e4 : locationPoints job { candidate with skills := some skills }
        = locationPoints job { candidate with skills := some (skills ++ [s]) } := rfl
    have e5 : salaryPoints job { candidate with skills := some skills }
        = salaryPoints job { candidate with skills := some (skills ++ [s]) } := rfl
    rw [e2, e3, e4, e5]
    linarith
  unfold calculateCompatibilityScore
  exact mathRound_mono (min_le_min hraw le_rfl)

/-! ## The skills block -/

theorem levelOrDefault_of_not_inherited {level : String}
    (h : level ∉ objectPrototypeKeys) :
    levelOrDefault level = .num (specRank level) := by
  have hc : objectPrototypeKeys.contains level = false := by
    simpa using h
  unfold levelOrDefault levelPoints specRank
  rw [hc]
  split_ifs <;> simp_all

theorem levelGe_eq_specRank {candidateLevel requiredLevel : String}
    (hc : candidateLevel ∉ objectPrototypeKeys) (hr : requiredLevel ∉ objectPrototypeKeys) :
    levelGe (levelOrDefault candidateLevel) (levelOrDefault requiredLevel)
      = decide (specRank requiredLevel ≤ specRank candidateLevel) := by
  rw [levelOrDefault_of_not_inherited hc, levelOrDefault_of_not_inherited hr]
  rfl

theorem findSkill_eq_find (skills : List CandidateSkill) (r : RequiredSkill) :
    findSkill skills r
      = skills.find? (fun c => decide (toLowerCase c.name = toLowerCase r.name)) := by
  unfold findSkill
  congr 1

theorem skillScore_eq_spec (r : RequiredSkill) (c : CandidateSkill)
    (hr : r.level ∉ objectPrototypeKeys) (hc : c.level ∉ objectPrototypeKeys) :
    skillScore r c
      = (10 + (if specRank r.level ≤ specRank c.level then 5 else 0)) * specWeight r.importance := by
  unfold skillScore specWeight
  rw [levelGe_eq_specRank hc hr]
  by_cases hle : specRank r.level ≤ specRank c.level
  · simp only [hle, decide_True, if_true]
    split_ifs <;> ring
  · simp only [hle, decide_False, Bool.false_eq_true, if_false]
    split_ifs <;> ring

theorem skillsScore_foldl_eq_spec (skills : List CandidateSkill)
    (requiredSkills : List RequiredSkill) (total : ℚ)
    (hr : ∀ r ∈ requiredSkills, r.level ∉ objectPrototypeKeys)
    (hc : ∀ c ∈ skills, c.level ∉ objectPrototypeKeys) :
    requiredSkills.foldl
        (fun total requiredSkill =>
          match findSkill skills requiredSkill with
          | some candidateSkill => total + skillScore requiredSkill candidateSkill
          | none => total)
        total
      = total + specSkillsSum requiredSkills skills := by
  induction requiredSkills generalizing total with
  | nil => simp [specSkillsSum]
  | cons r rest ih =>
    simp only [List.foldl]
    rw [ih _ (fun x hx => hr x (List.mem_cons_of_mem _ hx))]
    have hterm : (match findSkill skills r with
        | some candidateSkill => total + skillScore r candidateSkill
        | none => total) = total + specSkillTerm skills r := by
      unfold specSkillTerm
      rw [← findSkill_eq_find]
      cases hf : findSkill skills r with
      | none => simp
      | some c =>
        have hmem : c ∈ skills := by
          unfold findSkill at hf
          exact List.mem_of_find?_eq_some hf
        simp only
        rw [skillScore_eq_spec r c (hr r (List.mem_cons_self _ _)) (hc c hmem)]
    rw [hterm]
    simp only [specSkillsSum, List.map_cons, List.sum_cons]
    ring

/-- The skills block computes the specified formula whenever no level is the
name of a member inherited from `Object.prototype`. -/
theorem skillsPoints_eq_spec (job : Job) (candidate : Candidate)
    (hr : ∀ r ∈ job.requiredSkills.getD [], r.level ∉ objectPrototypeKeys)
    (hc : ∀ c ∈ candidate.skills.getD [], c.level ∉ objectPrototypeKeys) :
    skillsPoints job candidate = specSkillsPoints job candidate := by
  unfold skillsPoints specSkillsPoints
  cases hrs : job.requiredSkills with
  | none => rfl
  | some rs =>
    cases hsk : candidate.skills with
    | none => rfl
    | some sk =>
      rw [hrs] at hr
      rw [hsk] at hc
      simp only [Option.getD_some] at hr hc
      simp only
      by_cases h : 0 < rs.length ∧ 0 < sk.length
      · have h2 : rs ≠ [] ∧ sk ≠ [] :=
          ⟨List.ne_nil_of_length_pos h.1, List.ne_nil_of_length_pos h.2⟩
        rw [if_pos h, if_pos h2]
        unfold skillsScore
        rw [skillsScore_foldl_eq_spec sk rs 0 hr hc]
        congr 1
        ring
      · have h2 : ¬ (rs ≠ [] ∧ sk ≠ []) := by
          intro hne
          exact h ⟨List.length_pos.mpr hne.1, List.length_pos.mpr hne.2⟩
        rw [if_neg h, if_neg h2]

/-- C11: for a Nice-to-have skill required at Beginner and held at the level
"constructor", the code adds 32 (no level bonus: 10 * 0.8 * 4), where the
specified formula, in which any other level has rank 1, gives 40. -/
theorem skillsPoints_inherited_level :
    skillsPoints inheritedLevelJob inheritedLevelCandidate = 32
      ∧ specSkillsPoints inheritedLevelJob inheritedLevelCandidate = 40 := by
  have hfind : findSkill [⟨"Go", "constructor"⟩] ⟨"Go", "Beginner", "Nice-to-have"⟩
      = some ⟨"Go", "constructor"⟩ := by decide
  have hlevel : levelGe (levelOrDefault "constructor") (levelOrDefault "Beginner") = false := by
    decide
  have hscore : skillScore ⟨"Go", "Beginner", "Nice-to-have"⟩ ⟨"Go", "constructor"⟩ = 8 := by
    simp only [skillScore, hlevel]
    norm_num
    decide
  have hrank : specRank "Beginner" ≤ specRank "constructor" := by decide
  have hterm : specSkillTerm [⟨"Go", "constructor"⟩] ⟨"Go", "Beginner", "Nice-to-have"⟩ = 12 := by
    unfold specSkillTerm
    rw [← findSkill_eq_find, hfind]
    simp only [hrank, if_true, specWeight]
    norm_num
    decide
  constructor
  · simp only [skillsPoints, inheritedLevelJob, inheritedLevelCandidate, skillsScore,
      List.foldl, hfind, hscore]
    norm_num
  · simp only [specSkillsPoints, inheritedLevelJob, inheritedLevelCandidate, specSkillsSum,
      List.map, List.sum_cons, List.sum_nil, hterm]
    norm_num

theorem experienceYears_of_valid (now : ℤ) (exp : Experience) (h : datesValid exp) :
    experienceYears now exp = some (specYears now exp) := by
  obtain ⟨hs, he⟩ := h
  unfold experienceYears specYears
  cases hstart : exp.startDate with
  | none => simp [hstart] at hs
  | some s =>
    cases hcur : exp.isCurrent with
    | true => simp
    | false =>
      cases hend : exp.endDate with
      | none => simp [hcur, hend] at he
      | some e => simp

theorem totalExperience_foldl_of_valid (now : ℤ) (experience : List Experience) (total : ℚ)
    (h : ∀ e ∈ experience, datesValid e) :
    experience.foldl (fun total exp => numAdd total (experienceYears now exp)) (some total)
      = some (total + specTotalYears now experience) := by
  induction experience generalizing total with
  | nil => simp [specTotalYears]
  | cons e rest ih =>
    simp only [List.foldl]
    rw [experienceYears_of_valid now e (h e (List.mem_cons_self _ _))]
    have hadd : numAdd (some total) (some (specYears now e))
        = some (total + specYears now e) := rfl
    rw [hadd, ih _ (fun x hx => h x (List.mem_cons_of_mem _ hx))]
    simp only [specTotalYears, List.map_cons, List.sum_cons]
    congr 1
    ring

theorem totalExperience_of_valid (now : ℤ) (experience : List Experience)
    (h : ∀ e ∈ experience, datesValid e) :
    totalExperience now experience = some (specTotalYears now experience) := by
  unfold totalExperience
  rw [totalExperience_foldl_of_valid now experience 0 h, zero_add]

/-- The experience block follows the specified case distinction whenever the
dates are valid and `maxExperience` is not 0. -/
theorem experiencePoints_eq_spec (job : Job) (candidate : Candidate) (now : ℤ)
    (experience : List Experience) (he : candidate.experience = some experience)
    (hne : experience ≠ []) (hv : ∀ e ∈ experience, datesValid e)
    (hmax : job.maxExperience ≠ some 0) :
    experiencePoints job candidate now
      = if specTotalYears now experience < job.minExperience then 0
        else
          match job.maxExperience with
          | none => 25
          | some maxExperience =>
            if specTotalYears now experience ≤ maxExperience then 25 else 15 := by
  have hlen : 0 < experience.length := List.length_pos.mpr hne
  unfold experiencePoints
  rw [he]
  simp only [hlen, if_true, totalExperience_of_valid now experience hv, numGe]
  by_cases hlt : specTotalYears now experience < job.minExperience
  · simp [hlt, not_le.mpr hlt]
  · have hge : job.minExperience ≤ specTotalYears now experience := not_lt.mp hlt
    simp only [hge, decide_True, if_true, hlt, if_false]
    cases hm : job.maxExperience with
    | none => simp [truthyNumber]; norm_num
    | some m =>
      have hm0 : m ≠ 0 := fun h0 => hmax (by rw [hm, h0])
      by_cases hle : specTotalYears now experience ≤ m
      · simp [truthyNumber, hm0, numLe, hle]; norm_num
      · simp [truthyNumber, hm0, numLe, hle]

theorem experiencePoints_no_entries (job : Job) (candidate : Candidate) (now : ℤ)
    (h : candidate.experience = none ∨ candidate.experience = some []) :
    experiencePoints job candidate now = 0 := by
  unfold experiencePoints
  rcases h with h | h <;> simp [h]

/-- C13: for a job whose `minExperience` and `maxExperience` are both 0 and a
candidate with one past job of 366 days, the total is above `maxExperience`,
which is present, yet the block adds 25, where the claim says 15. -/
theorem experiencePoints_zero_max (now : ℤ) :
    zeroMaxJob.maxExperience = some 0
      ∧ zeroMaxJob.minExperience ≤ specTotalYears now [pastYearEntry]
      ∧ (0 : ℚ) < specTotalYears now [pastYearEntry]
      ∧ experiencePoints zeroMaxJob oneYearCandidate now = 25 := by
  have hT : specTotalYears now [pastYearEntry] = 366 / 365 := by
    simp [specTotalYears, specYears, pastYearEntry, date20200101, msPerYear]
    norm_num
  have htotal : totalExperience now [pastYearEntry] = some (366 / 365) := by
    rw [totalExperience_of_valid now _ (by
      intro e he
      rw [List.mem_singleton] at he
      subst he
      exact ⟨rfl, Or.inr rfl⟩), hT]
  refine ⟨rfl, ?_, ?_, ?_⟩
  · rw [hT]; simp [zeroMaxJob]; norm_num
  · rw [hT]; norm_num
  · simp only [experiencePoints, oneYearCandidate, zeroMaxJob, htotal, numGe, truthyNumber]
    norm_num

/-! ## The education, location and salary blocks -/

theorem toLowerCase_eq_empty {s : String} (h : toLowerCase s = "") : s = "" := by
  unfold toLowerCase at h
  have hd := congrArg String.data h
  have hnil : s.data = [] := by simpa using hd
  exact String.ext hnil

theorem includes_empty_left {t : String} (h : includes "" t = true) : t = "" := by
  unfold includes at h
  have hd : ("" : String).data = [] := rfl
  rw [hd] at h
  cases ht : t.data with
  | nil => exact String.ext ht
  | cons c cs => simp [ht, List.isPrefixOf] at h

theorem degree_ne_empty {degree level : String} (hl : level ≠ "")
    (h : includes (toLowerCase degree) (toLowerCase level) = true) : degree ≠ "" := by
  intro hd
  subst hd
  have hlow : toLowerCase "" = "" := rfl
  rw [hlow] at h
  exact hl (toLowerCase_eq_empty (includes_empty_left h))

theorem truthyString_of_ne {s : String} (h : s ≠ "") : truthyString (some s) = some s := by
  simp only [truthyString]
  rw [if_neg h]

theorem truthyString_eq_some {o : Option String} {s : String} (h : truthyString o = some s) :
    o = some s ∧ s ≠ "" := by
  cases o with
  | none => simp [truthyString] at h
  | some t =>
    simp only [truthyString] at h
    by_cases ht : t = ""
    · rw [if_pos ht] at h
      simp at h
    · rw [if_neg ht] at h
      have hts : t = s := Option.some.inj h
      subst hts
      exact ⟨rfl, ht⟩

theorem degreeMatches_eq (job : Job) (e : JobEducation) (edu : CandidateEducation)
    (hed : job.education = some e) :
    degreeMatches job edu
      = match truthyString e.level, truthyString edu.degree with
        | some level, some degree => includes (toLowerCase degree) (toLowerCase level)
        | _, _ => false := by
  unfold degreeMatches
  rw [hed]
  rfl

theorem any_degreeMatches_iff (job : Job) (e : JobEducation)
    (entries : List CandidateEducation) (hed : job.education = some e)
    (hlevel : e.level ≠ some "") :
    entries.any (degreeMatches job) = true
      ↔ ∃ level, e.level = some level ∧ ∃ edu ∈ entries, ∃ degree,
          edu.degree = some degree
            ∧ includes (toLowerCase degree) (toLowerCase level) = true := by
  rw [List.any_eq_true]
  constructor
  · rintro ⟨edu, hmem, hmatch⟩
    rw [degreeMatches_eq job e edu hed] at hmatch
    cases hl : truthyString e.level with
    | none => simp [hl] at hmatch
    | some level =>
      cases hd : truthyString edu.degree with
      | none => simp [hl, hd] at hmatch
      | some degree =>
        simp only [hl, hd] at hmatch
        exact ⟨level, (truthyString_eq_some hl).1, edu, hmem, degree,
          (truthyString_eq_some hd).1, hmatch⟩
  · rintro ⟨level, hl, edu, hmem, degree, hd, hinc⟩
    have hl0 : level ≠ "" := fun h0 => hlevel (by rw [hl, h0])
    have hd0 : degree ≠ "" := degree_ne_empty hl0 hinc
    refine ⟨edu, hmem, ?_⟩
    rw [degreeMatches_eq job e edu hed, hl, hd, truthyString_of_ne hl0,
      truthyString_of_ne hd0]
    exact hinc

/-- C14: for a job whose `education.required` is true (its level, when
present, being one of the non-empty names of the schema), a candidate with no
education entries gets 0, and a candidate with entries gets 15 exactly when
the level is present and the lowercased degree of some entry contains the
lowercased level, and 0 otherwise. -/
theorem educationPoints_required (job : Job) (candidate : Candidate) (e : JobEducation)
    (hed : job.education = some e) (hreq : e.required = true)
    (hlevel : e.level ≠ some "") :
    ((candidate.education = none ∨ candidate.education = some [])
        → educationPoints job candidate = 0)
      ∧ ∀ entries, candidate.education = some entries → entries ≠ [] →
          ((∃ level, e.level = some level ∧ ∃ edu ∈ entries, ∃ degree,
              edu.degree = some degree
                ∧ includes (toLowerCase degree) (toLowerCase level) = true)
            → educationPoints job candidate = 15)
          ∧ ((¬ ∃ level, e.level = some level ∧ ∃ edu ∈ entries, ∃ degree,
              edu.degree = some degree
                ∧ includes (toLowerCase degree) (toLowerCase level) = true)
            → educationPoints job candidate = 0) := by
  have hr : educationRequired job = true := by
    unfold educationRequired
    rw [hed]
    exact hreq
  constructor
  · intro h
    unfold educationPoints
    rcases h with h | h <;> simp [h, hr]
  · intro entries hc hne
    have hlen : 0 < entries.length := List.length_pos.mpr hne
    have hpts : educationPoints job candidate
        = if entries.any (degreeMatches job) = true then 15 else 0 := by
      unfold educationPoints
      simp [hc, hr, hlen]
    have hiff := any_degreeMatches_iff job e entries hed hlevel
    rw [hpts]
    constructor
    · intro h
      rw [if_pos (hiff.mpr h)]
    · intro h
      rw [if_neg (fun hany => h (hiff.mp hany))]

/-- The claim C14 at a job that requires a PhD and a candidate with a PhD in
computer science. -/
theorem educationPoints_required_witness :
    doctoralJob.education = some { level := some "PhD", required := true }
      ∧ educationPoints doctoralJob doctoralCandidate = 15 :=
  ⟨rfl,
    ((educationPoints_required doctoralJob doctoralCandidate
        { level := some "PhD", required := true } rfl rfl (by decide)).2
      [{ degree := some "PhD in Computer Science" }] rfl (by decide)).1
      ⟨"PhD", rfl, { degree := some "PhD in Computer Science" }, by decide,
        "PhD in Computer Science", rfl, by decide⟩⟩

end JobSchema
